import Mathlib

/-!
# Round state of the PBFT core (`consensus/pbft/core/snapshot.go`)

A shallow embedding of the `snapshot` type, its constructor `newSnapshot`, its
accessors and mutators, and its `EncodeRLP` / `DecodeRLP` pair.

Go pointers are `Option` values (`none` is the nil pointer), `*big.Int` is
`Option Int`, and every method is a state transformer over the receiver that
also records, in program order, each lock operation and each access to a field
of the receiver.  A call that does not return normally (nil dereference,
waiting on a mutex nobody releases) is an `Except` error.
-/

namespace Pbft

/-- Ways in which a call fails to return normally. -/
inductive Fault where
  /-- A nil pointer was dereferenced. -/
  | nilDereference
  /-- `Lock` was called on a mutex that is held and that no one releases. -/
  | deadlock
  /-- `Unlock` was called on a mutex that is not held. -/
  | unlockOfUnlocked
  deriving DecidableEq

/-- State of a `sync.Mutex`; `new(sync.Mutex)` is `unlocked`. -/
inductive Mutex where
  | unlocked
  | locked
  deriving DecidableEq

/-- The six data fields of `snapshot`. -/
inductive Field where
  | round
  | sequence
  | Preprepare
  | Prepares
  | Commits
  | Checkpoints
  deriving DecidableEq

/-- What a method does to its receiver, in program order. -/
inductive Event where
  /-- `s.mu.Lock()` returned. -/
  | lock
  /-- `s.mu.Unlock()` returned. -/
  | unlock
  /-- A data field was read. -/
  | read (f : Field)
  /-- A data field was assigned. -/
  | write (f : Field)
  /-- The field `mu` itself was assigned. -/
  | writeMu
  deriving DecidableEq

/-- The type `pbft.View`: the two fields `newSnapshot` reads. -/
structure View where
  Round : Option Int
  Sequence : Option Int
  deriving DecidableEq

/-- The type `pbft.Preprepare`.  The source uses its field `Proposal`, of the
interface type `pbft.Proposal` (so it may be nil); `X` stands for whatever else
the message carries. -/
structure Preprepare (X Prp : Type) where
  rest : X
  Proposal : Option Prp
  deriving DecidableEq

/-- The struct `snapshot`; `M` is the type `messageSet`. -/
structure snapshot (X Prp M : Type) where
  round : Option Int
  sequence : Option Int
  Preprepare : Option (Preprepare X Prp)
  Prepares : Option M
  Commits : Option M
  Checkpoints : Option M
  mu : Option Mutex
  deriving DecidableEq

/-- The receiver together with the record of what has been done to it. -/
structure Mem (X Prp M : Type) where
  s : snapshot X Prp M
  log : List Event
  deriving DecidableEq

/-- A method body: it runs on the receiver and either returns a value and the
receiver as it left it, or does not return. -/
abbrev Exec (X Prp M : Type) (α : Type) : Type :=
  Mem X Prp M → Except Fault (α × Mem X Prp M)

section Core

variable {X Prp M : Type}

/-- Sequencing of two statements. -/
def Exec.andThen {α β : Type} (a : Exec X Prp M α) (k : α → Exec X Prp M β) :
    Exec X Prp M β :=
  fun m =>
    match a m with
    | .error e => .error e
    | .ok (x, m1) => k x m1

/-- Returning a value. -/
def Exec.ret {α : Type} (x : α) : Exec X Prp M α :=
  fun m => .ok (x, m)

instance : Monad (Exec X Prp M) where
  pure := Exec.ret
  bind := Exec.andThen

/-- The statement `s.mu.Lock()`. -/
def Lock : Exec X Prp M Unit :=
  fun m =>
    match m.s.mu with
    | none => .error .nilDereference
    | some .locked => .error .deadlock
    | some .unlocked =>
      .ok ((), { s := { m.s with mu := some .locked }, log := m.log ++ [.lock] })

/-- The call `s.mu.Unlock()`, run by `defer` when the method returns. -/
def Unlock : Exec X Prp M Unit :=
  fun m =>
    match m.s.mu with
    | none => .error .nilDereference
    | some .unlocked => .error .unlockOfUnlocked
    | some .locked =>
      .ok ((), { s := { m.s with mu := some .unlocked }, log := m.log ++ [.unlock] })

/-- Reading `s.round`. -/
def loadRound : Exec X Prp M (Option Int) :=
  fun m => .ok (m.s.round, { m with log := m.log ++ [.read .round] })

/-- Reading `s.sequence`. -/
def loadSequence : Exec X Prp M (Option Int) :=
  fun m => .ok (m.s.sequence, { m with log := m.log ++ [.read .sequence] })

/-- Reading `s.Preprepare`. -/
def loadPreprepare : Exec X Prp M (Option (Preprepare X Prp)) :=
  fun m => .ok (m.s.Preprepare, { m with log := m.log ++ [.read .Preprepare] })

/-- Reading `s.Prepares`. -/
def loadPrepares : Exec X Prp M (Option M) :=
  fun m => .ok (m.s.Prepares, { m with log := m.log ++ [.read .Prepares] })

/-- Reading `s.Commits`. -/
def loadCommits : Exec X Prp M (Option M) :=
  fun m => .ok (m.s.Commits, { m with log := m.log ++ [.read .Commits] })

/-- Reading `s.Checkpoints`. -/
def loadCheckpoints : Exec X Prp M (Option M) :=
  fun m => .ok (m.s.Checkpoints, { m with log := m.log ++ [.read .Checkpoints] })

/-- The assignment `s.round = v`. -/
def storeRound (v : Option Int) : Exec X Prp M Unit :=
  fun m => .ok ((), { s := { m.s with round := v }, log := m.log ++ [.write .round] })

/-- The assignment `s.sequence = v`. -/
def storeSequence (v : Option Int) : Exec X Prp M Unit :=
  fun m => .ok ((), { s := { m.s with sequence := v }, log := m.log ++ [.write .sequence] })

/-- The assignment `s.Preprepare = v`. -/
def storePreprepare (v : Option (Preprepare X Prp)) : Exec X Prp M Unit :=
  fun m =>
    .ok ((), { s := { m.s with Preprepare := v }, log := m.log ++ [.write .Preprepare] })

/-- The assignment `s.Prepares = v`. -/
def storePrepares (v : Option M) : Exec X Prp M Unit :=
  fun m => .ok ((), { s := { m.s with Prepares := v }, log := m.log ++ [.write .Prepares] })

/-- The assignment `s.Commits = v`. -/
def storeCommits (v : Option M) : Exec X Prp M Unit :=
  fun m => .ok ((), { s := { m.s with Commits := v }, log := m.log ++ [.write .Commits] })

/-- The assignment `s.Checkpoints = v`. -/
def storeCheckpoints (v : Option M) : Exec X Prp M Unit :=
  fun m =>
    .ok ((), { s := { m.s with Checkpoints := v }, log := m.log ++ [.write .Checkpoints] })

/-- The assignment `s.mu = new(sync.Mutex)`. -/
def storeNewMutex : Exec X Prp M Unit :=
  fun m => .ok ((), { s := { m.s with mu := some .unlocked }, log := m.log ++ [.writeMu] })

/-- The expression `new(big.Int).Set(r)`: a copy of the integer `r` points to;
it dereferences `r`. -/
def bigIntSet (r : Option Int) : Exec X Prp M (Option Int) :=
  fun m =>
    match r with
    | none => .error .nilDereference
    | some v => .ok (some v, m)

/-- The function `newSnapshot`.  `newMessageSet` is the constructor of
`messageSet`, a function that is not among the sources; `view` is a pointer. -/
def newSnapshot {VS : Type} (newMessageSet : VS → Option M) (view : Option View)
    (validatorSet : VS) : Except Fault (snapshot X Prp M) :=
  match view with
  | none => .error .nilDereference
  | some v =>
    .ok
      { round := v.Round
        sequence := v.Sequence
        Preprepare := none
        Prepares := newMessageSet validatorSet
        Commits := newMessageSet validatorSet
        Checkpoints := newMessageSet validatorSet
        mu := some .unlocked }

/-- The method `Proposal`.  The test `s.Preprepare != nil` and the returned
expression `s.Preprepare.Proposal` read the same field under the lock; it is
read once here. -/
def Proposal : Exec X Prp M (Option Prp) := do
  Lock
  let p ← loadPreprepare
  let result :=
    match p with
    | some pp => pp.Proposal
    | none => none
  Unlock
  return result

/-- The method `SetRound`. -/
def SetRound (r : Option Int) : Exec X Prp M Unit := do
  Lock
  let v ← bigIntSet r
  storeRound v
  Unlock

/-- The method `Round`. -/
def Round : Exec X Prp M (Option Int) := do
  Lock
  let result ← loadRound
  Unlock
  return result

/-- The method `SetSequence`. -/
def SetSequence (seq : Option Int) : Exec X Prp M Unit := do
  Lock
  storeSequence seq
  Unlock

/-- The method `Sequence`. -/
def Sequence : Exec X Prp M (Option Int) := do
  Lock
  let result ← loadSequence
  Unlock
  return result

/-- The calls a client can make on the accessors and mutators; `SetRound` is
given an integer, `SetSequence` any pointer. -/
inductive Call where
  | Proposal
  | SetRound (r : Int)
  | Round
  | SetSequence (seq : Option Int)
  | Sequence
  deriving DecidableEq

/-- Making one call and dropping what it returns. -/
def Call.run : Call → Exec X Prp M Unit
  | .Proposal => do
    let _ ← Pbft.Proposal
    return ()
  | .SetRound r => Pbft.SetRound (some r)
  | .Round => do
    let _ ← Pbft.Round
    return ()
  | .SetSequence seq => Pbft.SetSequence seq
  | .Sequence => do
    let _ ← Pbft.Sequence
    return ()

/-- Making a finite sequence of calls, one after the other. -/
def runCalls : List Call → Exec X Prp M Unit
  | [] => return ()
  | c :: cs => do
    c.run
    runCalls cs

/-- Byte strings; a byte is a number below 256. -/
abbrev Bytes : Type := List Nat

/-- One element of the `[]interface{}` literal that `EncodeRLP` hands to the
encoder, with its dynamic type. -/
inductive Value (X Prp M : Type) where
  | bigInt (v : Option Int)
  | preprepare (v : Option (Preprepare X Prp))
  | messageSet (v : Option M)
  deriving DecidableEq

/-- The local variable `ss` of `DecodeRLP`, its six fields in the order of
their declaration. -/
structure Fields (X Prp M : Type) where
  Round : Option Int
  Sequence : Option Int
  Preprepare : Option (Preprepare X Prp)
  Prepares : Option M
  Commits : Option M
  Checkpoints : Option M
  deriving DecidableEq

/-- The six fields of `ss` as a tuple, in the order of their declaration. -/
def Fields.toList (ss : Fields X Prp M) : List (Value X Prp M) :=
  [.bigInt ss.Round, .bigInt ss.Sequence, .preprepare ss.Preprepare,
    .messageSet ss.Prepares, .messageSet ss.Commits, .messageSet ss.Checkpoints]

/-- Modelled from the spec: the byte-level encode/decode primitive for nested
structures that the round state consumes (the functions `rlp.Encode` and
`(*rlp.Stream).Decode` of package `rlp`, which is not among the sources).
`Encode` gives the encoding of a tuple of values or an error; `Decode` reads one
six-field value from the unread input of a stream and gives the decoded fields
or an error, together with the input left unread. -/
structure Rlp (X Prp M Err : Type) where
  Encode : List (Value X Prp M) → Except Err Bytes
  Decode : Bytes → Except Err (Fields X Prp M) × Bytes

/-- The call `rlp.Encode(w, val)`: the encoding of `val` is written after what
`w` already holds, or an error is returned and nothing is written. -/
def Rlp.EncodeTo {Err : Type} (rlp : Rlp X Prp M Err) (w : Bytes)
    (val : List (Value X Prp M)) : Option Err × Bytes :=
  match rlp.Encode val with
  | .ok bs => (none, w ++ bs)
  | .error err => (some err, w)

/-- The method `EncodeRLP`: the error it returns and the content of `w`
afterwards. -/
def EncodeRLP {Err : Type} (rlp : Rlp X Prp M Err) (w : Bytes) :
    Exec X Prp M (Option Err × Bytes) := do
  let round ← loadRound
  let sequence ← loadSequence
  let preprepare ← loadPreprepare
  let prepares ← loadPrepares
  let commits ← loadCommits
  let checkpoints ← loadCheckpoints
  return rlp.EncodeTo w
    [.bigInt round, .bigInt sequence, .preprepare preprepare,
      .messageSet prepares, .messageSet commits, .messageSet checkpoints]

/-- The method `DecodeRLP`: the error it returns and the input the stream has
left. -/
def DecodeRLP {Err : Type} (rlp : Rlp X Prp M Err) (stream : Bytes) :
    Exec X Prp M (Option Err × Bytes) :=
  match rlp.Decode stream with
  | (.error err, rest) => return (some err, rest)
  | (.ok ss, rest) => do
    storeRound ss.Round
    storeSequence ss.Sequence
    storePreprepare ss.Preprepare
    storePrepares ss.Prepares
    storeCommits ss.Commits
    storeCheckpoints ss.Checkpoints
    storeNewMutex
    return (none, rest)

/-- The tuple `EncodeRLP` builds from a receiver. -/
def snapshot.tuple (s : snapshot X Prp M) : List (Value X Prp M) :=
  [.bigInt s.round, .bigInt s.sequence, .preprepare s.Preprepare,
    .messageSet s.Prepares, .messageSet s.Commits, .messageSet s.Checkpoints]

/-- The six data fields of a receiver. -/
def snapshot.fields (s : snapshot X Prp M) : Fields X Prp M :=
  { Round := s.round
    Sequence := s.sequence
    Preprepare := s.Preprepare
    Prepares := s.Prepares
    Commits := s.Commits
    Checkpoints := s.Checkpoints }

/-- A pointer to a non-negative integer. -/
def nonNegative : Option Int → Bool
  | some v => decide (0 ≤ v)
  | none => false

/-- A valid round state as far as the encoding is concerned: round and
sequence are non-negative integers and the three vote sets are there; the
proposal may be there or not. -/
def Fields.wellFormed (ss : Fields X Prp M) : Bool :=
  nonNegative ss.Round && nonNegative ss.Sequence &&
    ss.Prepares.isSome && ss.Commits.isSome && ss.Checkpoints.isSome

/-- Every pointer field of `ss` has been allocated: none of the six is nil. -/
def Fields.allocated (ss : Fields X Prp M) : Bool :=
  ss.Round.isSome && ss.Sequence.isSome && ss.Preprepare.isSome &&
    ss.Prepares.isSome && ss.Commits.isSome && ss.Checkpoints.isSome

/-- The six fields of `ss` are declared as pointers without the struct tag
`rlp:"nil"`.  Package `rlp` (not among the sources) decodes into such a field
by allocating the value it points to, so after a decode that succeeded none of
the six is nil; only a field that carries the tag is set to nil on an empty
value.  This is that rule, as a property of the decode primitive. -/
def Rlp.Allocates {Err : Type} (rlp : Rlp X Prp M Err) : Prop :=
  ∀ (stream : Bytes) (ss : Fields X Prp M),
    (rlp.Decode stream).1 = .ok ss → ss.allocated = true

/-- The lock protocol of a critical section, checked on the events of one
call: the lock is taken before any field is touched, fields are touched only
while it is held, the field `mu` is not reassigned, and the lock is free at the
end.  The flag says whether the lock is held. -/
def guarded : Bool → List Event → Bool
  | held, [] => !held
  | false, .lock :: es => guarded true es
  | true, .unlock :: es => guarded false es
  | true, .read _ :: es => guarded true es
  | true, .write _ :: es => guarded true es
  | _, _ :: _ => false

/-- Modelled from the spec: the data model of a QuorumSet (the type
`messageSet`, which is not among the sources): the roster of validators allowed
to vote and the votes, one entry per validator that voted. -/
structure messageSet (Id Val : Type) where
  roster : List Id
  votes : List (Id × Val)
  deriving DecidableEq

end Core

/-! ## A plain codec

A small byte-level codec for nested structures, used to run `EncodeRLP` and
`DecodeRLP` on concrete bytes.  Numbers are written in unary (so many bytes 1,
then a byte 0), a pointer as a byte 0 for nil or a byte 1 and the value, a list
as its length and its elements, a struct as its fields one after the other.
Decoding into the six pointer fields of `ss` allocates them, as the decoder of
package `rlp` does for pointers without the `rlp:"nil"` tag, so the encoding of
a nil pointer does not decode into such a field. -/

namespace Plain

/-- Errors of the plain codec. -/
inductive CodecError where
  /-- The value has no encoding (a nil or negative integer). -/
  | unencodable
  /-- The input is not the encoding of a six-field tuple. -/
  | malformed
  deriving DecidableEq

/-- Proposals are numbers. -/
abbrev Prop0 : Type := Nat

/-- Vote sets over validators and values that are numbers. -/
abbrev Votes : Type := messageSet Nat Nat

/-- The encoding of a number. -/
def putNat (n : Nat) : Bytes :=
  List.replicate n 1 ++ [0]

/-- Reading a number. -/
def getNat : Bytes → Option (Nat × Bytes)
  | 0 :: rest => some (0, rest)
  | 1 :: rest =>
    match getNat rest with
    | some (n, r) => some (n + 1, r)
    | none => none
  | _ => none

/-- The encoding of a pointer. -/
def putPointer {α : Type} (put : α → Bytes) : Option α → Bytes
  | none => [0]
  | some a => 1 :: put a

/-- Reading a pointer. -/
def getPointer {α : Type} (get : Bytes → Option (α × Bytes)) : Bytes → Option (Option α × Bytes)
  | 0 :: rest => some (none, rest)
  | 1 :: rest =>
    match get rest with
    | some (a, r) => some (some a, r)
    | none => none
  | _ => none

/-- The encodings of the elements of a list, one after the other. -/
def putEach {α : Type} (put : α → Bytes) : List α → Bytes
  | [] => []
  | a :: as => put a ++ putEach put as

/-- The encoding of a list. -/
def putList {α : Type} (put : α → Bytes) (xs : List α) : Bytes :=
  putNat xs.length ++ putEach put xs

/-- Reading so many elements. -/
def getEach {α : Type} (get : Bytes → Option (α × Bytes)) : Nat → Bytes → Option (List α × Bytes)
  | 0, bs => some ([], bs)
  | n + 1, bs =>
    match get bs with
    | none => none
    | some (a, r) =>
      match getEach get n r with
      | none => none
      | some (as, r1) => some (a :: as, r1)

/-- Reading a list. -/
def getList {α : Type} (get : Bytes → Option (α × Bytes)) (bs : Bytes) :
    Option (List α × Bytes) :=
  match getNat bs with
  | none => none
  | some (n, r) => getEach get n r

/-- The encoding of a vote. -/
def putVote (v : Nat × Nat) : Bytes :=
  putNat v.1 ++ putNat v.2

/-- Reading a vote. -/
def getVote (bs : Bytes) : Option ((Nat × Nat) × Bytes) :=
  match getNat bs with
  | none => none
  | some (a, r) =>
    match getNat r with
    | none => none
    | some (b, r1) => some ((a, b), r1)

/-- The encoding of a vote set: the roster, then the votes. -/
def putVotes (q : Votes) : Bytes :=
  putList putNat q.roster ++ putList putVote q.votes

/-- Reading a vote set. -/
def getVotes (bs : Bytes) : Option (Votes × Bytes) :=
  match getList getNat bs with
  | none => none
  | some (roster, r) =>
    match getList getVote r with
    | none => none
    | some (votes, r1) => some ({ roster := roster, votes := votes }, r1)

/-- The encoding of a Preprepare: its proposal, a pointer. -/
def putPreprepare (p : Preprepare Unit Prop0) : Bytes :=
  putPointer putNat p.Proposal

/-- Reading a Preprepare. -/
def getPreprepare (bs : Bytes) : Option (Preprepare Unit Prop0 × Bytes) :=
  match getPointer getNat bs with
  | none => none
  | some (p, r) => some ({ rest := (), Proposal := p }, r)

/-- The encoding of a big integer: there is one for non-negative integers
only. -/
def putBigInt : Option Int → Option Bytes
  | some v => if 0 ≤ v then some (putNat v.toNat) else none
  | none => none

/-- Reading a big integer: the integer is allocated, and it is never
negative. -/
def getBigInt (bs : Bytes) : Option (Int × Bytes) :=
  match getNat bs with
  | none => none
  | some (n, r) => some (Int.ofNat n, r)

/-- Reading into a pointer field that has no `rlp:"nil"` tag: the value is
allocated and decoded into, and the encoding of a nil pointer is not the
encoding of a value. -/
def getAllocated {α : Type} (get : Bytes → Option (α × Bytes)) : Bytes → Option (α × Bytes)
  | 1 :: rest => get rest
  | _ => none

/-- The encoding of one value of a tuple. -/
def putValue : Value Unit Prop0 Votes → Option Bytes
  | .bigInt v => putBigInt v
  | .preprepare v => some (putPointer putPreprepare v)
  | .messageSet v => some (putPointer putVotes v)

/-- The encodings of the values of a tuple, one after the other. -/
def putValues : List (Value Unit Prop0 Votes) → Option Bytes
  | [] => some []
  | v :: vs =>
    match putValue v, putValues vs with
    | some a, some b => some (a ++ b)
    | _, _ => none

/-- Modelled from the spec: encoding with a byte-level primitive for nested
structures (`rlp.Encode` is not among the sources).  The encoding of a tuple is
the number of its values, then the values. -/
def encode (val : List (Value Unit Prop0 Votes)) : Except CodecError Bytes :=
  match putValues val with
  | some bs => .ok (putNat val.length ++ bs)
  | none => .error .unencodable

/-- Reading the six fields of a tuple, in order; each is a pointer without the
tag, so each is allocated. -/
def getFields (bs : Bytes) : Option (Fields Unit Prop0 Votes × Bytes) :=
  match getNat bs with
  | none => none
  | some (n, r0) =>
    if n ≠ 6 then none
    else
      match getBigInt r0 with
      | none => none
      | some (round, r1) =>
        match getBigInt r1 with
        | none => none
        | some (sequence, r2) =>
          match getAllocated getPreprepare r2 with
          | none => none
          | some (preprepare, r3) =>
            match getAllocated getVotes r3 with
            | none => none
            | some (prepares, r4) =>
              match getAllocated getVotes r4 with
              | none => none
              | some (commits, r5) =>
                match getAllocated getVotes r5 with
                | none => none
                | some (checkpoints, r6) =>
                  some ({ Round := some round, Sequence := some sequence,
                          Preprepare := some preprepare, Prepares := some prepares,
                          Commits := some commits, Checkpoints := some checkpoints }, r6)

/-- Modelled from the spec: decoding with a byte-level primitive for nested
structures (`(*rlp.Stream).Decode` is not among the sources).  It reads one
six-field value from a stream, or fails on input that is not one. -/
def decode (stream : Bytes) : Except CodecError (Fields Unit Prop0 Votes) × Bytes :=
  match getFields stream with
  | some (ss, rest) => (.ok ss, rest)
  | none => (.error .malformed, stream)

/-- Modelled from the spec: the plain codec as the encode/decode primitive
that the round state consumes, in place of package `rlp`, which is not among
the sources. -/
def rlp : Rlp Unit Prop0 Votes CodecError :=
  { Encode := encode, Decode := decode }

/-- A round state at round 2 of sequence 5 with a proposal, one prepare vote
from a validator of the roster, and a lock that is held. -/
def sample : snapshot Unit Prop0 Votes :=
  { round := some 2
    sequence := some 5
    Preprepare := some { rest := (), Proposal := some 9 }
    Prepares := some { roster := [1, 2], votes := [(1, 9)] }
    Commits := some { roster := [1, 2], votes := [] }
    Checkpoints := some { roster := [1, 2], votes := [] }
    mu := some .locked }

/-- A receiver that has no lock and nothing else. -/
def blank : snapshot Unit Prop0 Votes :=
  { round := none
    sequence := none
    Preprepare := none
    Prepares := none
    Commits := none
    Checkpoints := none
    mu := none }

/-- A round state with a free lock and empty vote sets. -/
def idle : snapshot Unit Prop0 Votes :=
  { round := some 7
    sequence := some 1
    Preprepare := some { rest := (), Proposal := some 4 }
    Prepares := some { roster := [1], votes := [] }
    Commits := some { roster := [1], votes := [] }
    Checkpoints := some { roster := [1], votes := [] }
    mu := some .unlocked }

/-- The state `newSnapshot` builds at round 0 of sequence 0 for the validator
set with the one validator 1: no Preprepare yet, three empty vote sets, a free
lock. -/
def fresh : snapshot Unit Prop0 Votes :=
  { round := some 0
    sequence := some 0
    Preprepare := none
    Prepares := some { roster := [1], votes := [] }
    Commits := some { roster := [1], votes := [] }
    Checkpoints := some { roster := [1], votes := [] }
    mu := some .unlocked }

/-- The bytes `EncodeRLP` writes for `fresh`: six values, round 0, sequence 0,
a nil Preprepare, and three vote sets with roster 1 and no vote. -/
def freshBytes : Bytes :=
  [1, 1, 1, 1, 1, 1, 0,
    0,
    0,
    0,
    1, 1, 0, 1, 0, 0,
    1, 1, 0, 1, 0, 0,
    1, 1, 0, 1, 0, 0]

/-- The bytes `EncodeRLP` writes for `idle`: six values, round 7, sequence 1,
a Preprepare with proposal 4, and three vote sets with roster 1 and no vote. -/
def idleBytes : Bytes :=
  [1, 1, 1, 1, 1, 1, 0,
    1, 1, 1, 1, 1, 1, 1, 0,
    1, 0,
    1, 1, 1, 1, 1, 1, 0,
    1, 1, 0, 1, 0, 0,
    1, 1, 0, 1, 0, 0,
    1, 1, 0, 1, 0, 0]

end Plain

end Pbft

namespace Pbft

section Accessors

variable {X Prp M : Type}

/-- What `Proposal` returns, read off the fields. -/
theorem Proposal_run (s : snapshot X Prp M) (l : List Event) (h : s.mu = some .unlocked) :
    Proposal ⟨s, l⟩ =
      .ok ((match s.Preprepare with
            | some pp => pp.Proposal
            | none => none), ⟨s, l ++ [.lock, .read .Preprepare, .unlock]⟩) := by
  obtain ⟨a, b, c, d, e, f, mu⟩ := s
  simp only at h
  subst h
  simp [Proposal, Lock, Unlock, loadPreprepare, bind, Exec.andThen, pure, Exec.ret]

/-- What `Round` returns and does. -/
theorem Round_run (s : snapshot X Prp M) (l : List Event) (h : s.mu = some .unlocked) :
    Round ⟨s, l⟩ = .ok (s.round, ⟨s, l ++ [.lock, .read .round, .unlock]⟩) := by
  obtain ⟨a, b, c, d, e, f, mu⟩ := s
  simp only at h
  subst h
  simp [Round, Lock, Unlock, loadRound, bind, Exec.andThen, pure, Exec.ret]

/-- What `Sequence` returns and does. -/
theorem Sequence_run (s : snapshot X Prp M) (l : List Event) (h : s.mu = some .unlocked) :
    Sequence ⟨s, l⟩ = .ok (s.sequence, ⟨s, l ++ [.lock, .read .sequence, .unlock]⟩) := by
  obtain ⟨a, b, c, d, e, f, mu⟩ := s
  simp only at h
  subst h
  simp [Sequence, Lock, Unlock, loadSequence, bind, Exec.andThen, pure, Exec.ret]

/-- What `SetRound` does when given an integer. -/
theorem SetRound_run (s : snapshot X Prp M) (l : List Event) (h : s.mu = some .unlocked)
    (r : Int) :
    SetRound (some r) ⟨s, l⟩ =
      .ok ((), ⟨{ s with round := some r }, l ++ [.lock, .write .round, .unlock]⟩) := by
  obtain ⟨a, b, c, d, e, f, mu⟩ := s
  simp only at h
  subst h
  simp [SetRound, Lock, Unlock, storeRound, bigIntSet, bind, Exec.andThen]

/-- What `SetSequence` does. -/
theorem SetSequence_run (s : snapshot X Prp M) (l : List Event) (h : s.mu = some .unlocked)
    (seq : Option Int) :
    SetSequence seq ⟨s, l⟩ =
      .ok ((), ⟨{ s with sequence := seq }, l ++ [.lock, .write .sequence, .unlock]⟩) := by
  obtain ⟨a, b, c, d, e, f, mu⟩ := s
  simp only at h
  subst h
  simp [SetSequence, Lock, Unlock, storeSequence, bind, Exec.andThen]

/-- What a call does: it returns, its events form a critical section, the lock
is free afterwards, and the proposal and the vote sets are untouched. -/
theorem Call_run (c : Call) (s : snapshot X Prp M) (l : List Event)
    (h : s.mu = some .unlocked) :
    ∃ s1 evs, c.run ⟨s, l⟩ = .ok ((), ⟨s1, l ++ evs⟩) ∧ guarded false evs = true ∧
      s1.mu = some .unlocked ∧ s1.Preprepare = s.Preprepare ∧ s1.Prepares = s.Prepares ∧
      s1.Commits = s.Commits ∧ s1.Checkpoints = s.Checkpoints := by
  cases c with
  | Proposal =>
    refine ⟨s, [.lock, .read .Preprepare, .unlock], ?_, rfl, h, rfl, rfl, rfl, rfl⟩
    simp [Call.run, bind, Exec.andThen, Proposal_run s l h, pure, Exec.ret]
  | SetRound r =>
    refine ⟨{ s with round := some r }, [.lock, .write .round, .unlock], ?_, rfl, h,
      rfl, rfl, rfl, rfl⟩
    simp [Call.run, SetRound_run s l h]
  | Round =>
    refine ⟨s, [.lock, .read .round, .unlock], ?_, rfl, h, rfl, rfl, rfl, rfl⟩
    simp [Call.run, bind, Exec.andThen, Round_run s l h, pure, Exec.ret]
  | SetSequence seq =>
    refine ⟨{ s with sequence := seq }, [.lock, .write .sequence, .unlock], ?_, rfl, h,
      rfl, rfl, rfl, rfl⟩
    simp [Call.run, SetSequence_run s l h]
  | Sequence =>
    refine ⟨s, [.lock, .read .sequence, .unlock], ?_, rfl, h, rfl, rfl, rfl, rfl⟩
    simp [Call.run, bind, Exec.andThen, Sequence_run s l h, pure, Exec.ret]

/-- A sequence of calls returns, leaves the lock free and leaves the proposal
and the vote sets untouched. -/
theorem runCalls_run (calls : List Call) :
    ∀ (s : snapshot X Prp M) (l : List Event), s.mu = some .unlocked →
      ∃ s1 l1, runCalls calls ⟨s, l⟩ = .ok ((), ⟨s1, l1⟩) ∧ s1.mu = some .unlocked ∧
        s1.Preprepare = s.Preprepare ∧ s1.Prepares = s.Prepares ∧
        s1.Commits = s.Commits ∧ s1.Checkpoints = s.Checkpoints := by
  induction calls with
  | nil =>
    intro s l h
    exact ⟨s, l, rfl, h, rfl, rfl, rfl, rfl⟩
  | cons c cs ih =>
    intro s l h
    obtain ⟨s1, evs, hc, -, h1, hp, ha, hb, hd⟩ := Call_run c s l h
    obtain ⟨s2, l2, hcs, h2, hp2, ha2, hb2, hd2⟩ := ih s1 (l ++ evs) h1
    refine ⟨s2, l2, ?_, h2, hp2.trans hp, ha2.trans ha, hb2.trans hb, hd2.trans hd⟩
    simp [runCalls, bind, Exec.andThen, hc, hcs]

/-- C6: on a round state whose lock is free, `Proposal()` returns the proposal
carried by the stored Preprepare when one is stored and nil when none is
stored, and leaves every field as it was; on the state built by `newSnapshot`,
for every view and validator set, it returns nil. -/
theorem Proposal_returns_stored_proposal :
    (∀ (s : snapshot X Prp M) (l : List Event), s.mu = some .unlocked →
      (∀ pp, s.Preprepare = some pp →
        Proposal ⟨s, l⟩ =
          .ok (pp.Proposal, ⟨s, l ++ [.lock, .read .Preprepare, .unlock]⟩)) ∧
      (s.Preprepare = none →
        Proposal ⟨s, l⟩ = .ok (none, ⟨s, l ++ [.lock, .read .Preprepare, .unlock]⟩))) ∧
    (∀ (VS : Type) (newMessageSet : VS → Option M) (view : View) (validatorSet : VS)
      (l : List Event),
      ∃ s0 : snapshot X Prp M,
        newSnapshot newMessageSet (some view) validatorSet = .ok s0 ∧
        Proposal ⟨s0, l⟩ = .ok (none, ⟨s0, l ++ [.lock, .read .Preprepare, .unlock]⟩)) := by
  refine ⟨fun s l h => ⟨fun pp hpp => ?_, fun hnone => ?_⟩, fun VS nm view vs l => ?_⟩
  · rw [Proposal_run s l h, hpp]
  · rw [Proposal_run s l h, hnone]
  · exact ⟨_, rfl, Proposal_run _ l rfl⟩

/-- C6 at a round state that stores a Preprepare carrying proposal 4. -/
theorem Proposal_returns_stored_proposal_witness :
    Plain.idle.mu = some .unlocked ∧
      Plain.idle.Preprepare = some { rest := (), Proposal := some 4 } ∧
      Proposal ⟨Plain.idle, []⟩ =
        .ok (some 4, ⟨Plain.idle, [.lock, .read .Preprepare, .unlock]⟩) :=
  ⟨rfl, rfl, (Proposal_returns_stored_proposal.1 Plain.idle [] rfl).1 _ rfl⟩

/-- C7: on a round state whose lock is free, for every integer `r`,
`SetRound(r)` returns, changes the round to `r` and nothing else, and the next
`Round()` returns `r`; no comparison with the round held before is made, so
this is so also when `r` is smaller. -/
theorem SetRound_then_Round (s : snapshot X Prp M) (l : List Event)
    (h : s.mu = some .unlocked) (r : Int) :
    ∃ l1 l2,
      SetRound (some r) ⟨s, l⟩ = .ok ((), ⟨{ s with round := some r }, l1⟩) ∧
      Round ⟨{ s with round := some r }, l1⟩ =
        .ok (some r, ⟨{ s with round := some r }, l2⟩) :=
  ⟨_, _, SetRound_run s l h r, Round_run _ _ h⟩

/-- C7 at a round state at round 7 that is set back to round 3. -/
theorem SetRound_then_Round_witness :
    Plain.idle.mu = some .unlocked ∧ Plain.idle.round = some 7 ∧
      ∃ l1 l2,
        SetRound (some 3) ⟨Plain.idle, []⟩ =
          .ok ((), ⟨{ Plain.idle with round := some 3 }, l1⟩) ∧
        Round ⟨{ Plain.idle with round := some 3 }, l1⟩ =
          .ok (some 3, ⟨{ Plain.idle with round := some 3 }, l2⟩) :=
  ⟨rfl, rfl, SetRound_then_Round Plain.idle [] rfl 3⟩

/-- C8: on a round state whose lock is free, `SetSequence(seq)` returns,
changes the sequence to `seq` and nothing else, and the next `Sequence()`
returns `seq`; and on the state built by `newSnapshot(view, validators)`,
`Round()` returns `view.Round` and `Sequence()` returns `view.Sequence`. -/
theorem SetSequence_then_Sequence :
    (∀ (s : snapshot X Prp M) (l : List Event), s.mu = some .unlocked →
      ∀ seq : Option Int, ∃ l1 l2,
        SetSequence seq ⟨s, l⟩ = .ok ((), ⟨{ s with sequence := seq }, l1⟩) ∧
        Sequence ⟨{ s with sequence := seq }, l1⟩ =
          .ok (seq, ⟨{ s with sequence := seq }, l2⟩)) ∧
    (∀ (VS : Type) (newMessageSet : VS → Option M) (view : View) (validatorSet : VS)
      (l : List Event),
      ∃ (s0 : snapshot X Prp M) (l1 l2 : List Event),
        newSnapshot newMessageSet (some view) validatorSet = .ok s0 ∧
        Round ⟨s0, l⟩ = .ok (view.Round, ⟨s0, l1⟩) ∧
        Sequence ⟨s0, l⟩ = .ok (view.Sequence, ⟨s0, l2⟩)) :=
  ⟨fun s l h seq => ⟨_, _, SetSequence_run s l h seq, Sequence_run _ _ h⟩,
    fun _ _ _ _ l => ⟨_, _, _, rfl, Round_run _ l rfl, Sequence_run _ l rfl⟩⟩

/-- C8 at a round state at sequence 1 that is set to sequence 8. -/
theorem SetSequence_then_Sequence_witness :
    Plain.idle.mu = some .unlocked ∧
      ∃ l1 l2,
        SetSequence (some 8) ⟨Plain.idle, []⟩ =
          .ok ((), ⟨{ Plain.idle with sequence := some 8 }, l1⟩) ∧
        Sequence ⟨{ Plain.idle with sequence := some 8 }, l1⟩ =
          .ok (some 8, ⟨{ Plain.idle with sequence := some 8 }, l2⟩) :=
  ⟨rfl, SetSequence_then_Sequence.1 Plain.idle [] rfl (some 8)⟩

/-- C10: on a round state whose lock is free, `SetRound` changes only the
round, `SetSequence` changes only the sequence, and `Round`, `Sequence` and
`Proposal` change nothing; and after every finite sequence of these calls the
stored Preprepare and the three vote sets are what they were, so `Proposal()`
returns the same proposal as before. -/
theorem proposal_stable_under_calls (s : snapshot X Prp M) (l : List Event)
    (h : s.mu = some .unlocked) :
    (∀ r : Int, ∃ l1,
      SetRound (some r) ⟨s, l⟩ = .ok ((), ⟨{ s with round := some r }, l1⟩)) ∧
    (∀ seq : Option Int, ∃ l1,
      SetSequence seq ⟨s, l⟩ = .ok ((), ⟨{ s with sequence := seq }, l1⟩)) ∧
    (∃ l1, Round ⟨s, l⟩ = .ok (s.round, ⟨s, l1⟩)) ∧
    (∃ l1, Sequence ⟨s, l⟩ = .ok (s.sequence, ⟨s, l1⟩)) ∧
    (∃ v l1, Proposal ⟨s, l⟩ = .ok (v, ⟨s, l1⟩)) ∧
    (∀ calls : List Call, ∃ s1 l1,
      runCalls calls ⟨s, l⟩ = .ok ((), ⟨s1, l1⟩) ∧
      s1.Preprepare = s.Preprepare ∧ s1.Prepares = s.Prepares ∧
      s1.Commits = s.Commits ∧ s1.Checkpoints = s.Checkpoints ∧
      ∃ v l2 l3, Proposal ⟨s, l⟩ = .ok (v, ⟨s, l2⟩) ∧
        Proposal ⟨s1, l1⟩ = .ok (v, ⟨s1, l3⟩)) := by
  refine ⟨fun r => ⟨_, SetRound_run s l h r⟩, fun seq => ⟨_, SetSequence_run s l h seq⟩,
    ⟨_, Round_run s l h⟩, ⟨_, Sequence_run s l h⟩, ⟨_, _, Proposal_run s l h⟩,
    fun calls => ?_⟩
  obtain ⟨s1, l1, hrun, h1, hp, ha, hb, hc⟩ := runCalls_run calls s l h
  refine ⟨s1, l1, hrun, hp, ha, hb, hc, _, _,
    l1 ++ [.lock, .read .Preprepare, .unlock], Proposal_run s l h, ?_⟩
  rw [Proposal_run s1 l1 h1, hp]

/-- C10 at a round state with proposal 4, over five calls. -/
theorem proposal_stable_under_calls_witness :
    Plain.idle.mu = some .unlocked ∧
      ∃ s1 l1,
        runCalls [.SetRound 3, .Round, .SetSequence (some 8), .Proposal, .Sequence]
          ⟨Plain.idle, []⟩ = .ok ((), ⟨s1, l1⟩) ∧
        s1.Preprepare = Plain.idle.Preprepare ∧ s1.Prepares = Plain.idle.Prepares ∧
        s1.Commits = Plain.idle.Commits ∧ s1.Checkpoints = Plain.idle.Checkpoints ∧
        ∃ v l2 l3, Proposal ⟨Plain.idle, []⟩ = .ok (v, ⟨Plain.idle, l2⟩) ∧
          Proposal ⟨s1, l1⟩ = .ok (v, ⟨s1, l3⟩) :=
  ⟨rfl, (proposal_stable_under_calls Plain.idle [] rfl).2.2.2.2.2 _⟩

end Accessors

end Pbft

namespace Pbft

section Codec

variable {X Prp M Err : Type}

/-- What `EncodeRLP` does: it reads the six fields and hands them, as one
tuple, to the encoder. -/
theorem EncodeRLP_run (rlp : Rlp X Prp M Err) (w : Bytes) (s : snapshot X Prp M)
    (l : List Event) :
    EncodeRLP rlp w ⟨s, l⟩ =
      .ok (rlp.EncodeTo w s.tuple,
        ⟨s, l ++ [.read .round, .read .sequence, .read .Preprepare, .read .Prepares,
          .read .Commits, .read .Checkpoints]⟩) := by
  simp [EncodeRLP, loadRound, loadSequence, loadPreprepare, loadPrepares, loadCommits,
    loadCheckpoints, bind, Exec.andThen, pure, Exec.ret, snapshot.tuple]

/-- What `DecodeRLP` does when the underlying decode succeeds. -/
theorem DecodeRLP_ok (rlp : Rlp X Prp M Err) (stream rest : Bytes) (ss : Fields X Prp M)
    (h : rlp.Decode stream = (.ok ss, rest)) (s : snapshot X Prp M) (l : List Event) :
    DecodeRLP rlp stream ⟨s, l⟩ =
      .ok ((none, rest),
        ⟨{ round := ss.Round
           sequence := ss.Sequence
           Preprepare := ss.Preprepare
           Prepares := ss.Prepares
           Commits := ss.Commits
           Checkpoints := ss.Checkpoints
           mu := some .unlocked },
         l ++ [.write .round, .write .sequence, .write .Preprepare, .write .Prepares,
          .write .Commits, .write .Checkpoints, .writeMu]⟩) := by
  simp [DecodeRLP, h, storeRound, storeSequence, storePreprepare, storePrepares,
    storeCommits, storeCheckpoints, storeNewMutex, bind, Exec.andThen, pure, Exec.ret]

/-- What `DecodeRLP` does when the underlying decode fails. -/
theorem DecodeRLP_error (rlp : Rlp X Prp M Err) (stream rest : Bytes) (err : Err)
    (h : rlp.Decode stream = (.error err, rest)) (m : Mem X Prp M) :
    DecodeRLP rlp stream m = .ok ((some err, rest), m) := by
  simp [DecodeRLP, h, pure, Exec.ret]

/-- C2: for every round state, `EncodeRLP` hands the encoder exactly one tuple
of six elements, in the order round, sequence, Preprepare (nil when there is no
proposal), prepare votes, commit votes, checkpoint votes, and writes its
encoding (or returns the error of the encoder and writes nothing); and
`DecodeRLP` reads six fields that it assigns to the receiver in the same
order. -/
theorem EncodeRLP_tuple_order (rlp : Rlp X Prp M Err) :
    (∀ (s : snapshot X Prp M) (l : List Event) (w : Bytes), ∃ l1,
      EncodeRLP rlp w ⟨s, l⟩ =
        .ok (rlp.EncodeTo w
          [.bigInt s.round, .bigInt s.sequence, .preprepare s.Preprepare,
            .messageSet s.Prepares, .messageSet s.Commits, .messageSet s.Checkpoints],
          ⟨s, l1⟩) ∧
      (∀ bs, rlp.Encode
          [.bigInt s.round, .bigInt s.sequence, .preprepare s.Preprepare,
            .messageSet s.Prepares, .messageSet s.Commits, .messageSet s.Checkpoints]
          = .ok bs →
        EncodeRLP rlp w ⟨s, l⟩ = .ok ((none, w ++ bs), ⟨s, l1⟩)) ∧
      (∀ err, rlp.Encode
          [.bigInt s.round, .bigInt s.sequence, .preprepare s.Preprepare,
            .messageSet s.Prepares, .messageSet s.Commits, .messageSet s.Checkpoints]
          = .error err →
        EncodeRLP rlp w ⟨s, l⟩ = .ok ((some err, w), ⟨s, l1⟩))) ∧
    (∀ (m : Mem X Prp M) (stream rest : Bytes) (ss : Fields X Prp M),
      rlp.Decode stream = (.ok ss, rest) →
      ∃ m1, DecodeRLP rlp stream m = .ok ((none, rest), m1) ∧
        [Value.bigInt m1.s.round, .bigInt m1.s.sequence, .preprepare m1.s.Preprepare,
          .messageSet m1.s.Prepares, .messageSet m1.s.Commits,
          .messageSet m1.s.Checkpoints] = ss.toList) := by
  refine ⟨fun s l w => ⟨_, EncodeRLP_run rlp w s l, fun bs hbs => ?_, fun err herr => ?_⟩,
    fun m stream rest ss h => ⟨_, DecodeRLP_ok rlp stream rest ss h m.s m.log, rfl⟩⟩
  · rw [EncodeRLP_run]
    simp [Rlp.EncodeTo, snapshot.tuple, hbs]
  · rw [EncodeRLP_run]
    simp [Rlp.EncodeTo, snapshot.tuple, herr]

/-- C2 at a stream of the plain codec that holds a six-field tuple. -/
theorem EncodeRLP_tuple_order_witness :
    Plain.rlp.Decode Plain.idleBytes = (.ok Plain.idle.fields, []) ∧
      ∃ m1, DecodeRLP Plain.rlp Plain.idleBytes ⟨Plain.blank, []⟩ =
          .ok ((none, []), m1) ∧
        [Value.bigInt m1.s.round, .bigInt m1.s.sequence, .preprepare m1.s.Preprepare,
          .messageSet m1.s.Prepares, .messageSet m1.s.Commits,
          .messageSet m1.s.Checkpoints] = Plain.idle.fields.toList :=
  ⟨rfl, (EncodeRLP_tuple_order Plain.rlp).2 ⟨Plain.blank, []⟩ _ _ _ rfl⟩

/-- C3: whatever the receiver held before (also no lock at all, or a lock that
is held), when the input decodes successfully the receiver afterwards holds the
six decoded values, the same for every prior state, and a new lock that is
free, so that `Round`, `Sequence` and `Proposal` return when called on it. -/
theorem DecodeRLP_replaces_state (rlp : Rlp X Prp M Err) (stream rest : Bytes)
    (ss : Fields X Prp M) (h : rlp.Decode stream = (.ok ss, rest)) :
    ∃ s1 : snapshot X Prp M,
      s1.round = ss.Round ∧ s1.sequence = ss.Sequence ∧ s1.Preprepare = ss.Preprepare ∧
      s1.Prepares = ss.Prepares ∧ s1.Commits = ss.Commits ∧
      s1.Checkpoints = ss.Checkpoints ∧ s1.mu = some .unlocked ∧
      (∀ m : Mem X Prp M, ∃ l1, DecodeRLP rlp stream m = .ok ((none, rest), ⟨s1, l1⟩)) ∧
      (∀ l : List Event,
        (∃ l1, Round ⟨s1, l⟩ = .ok (ss.Round, ⟨s1, l1⟩)) ∧
        (∃ l1, Sequence ⟨s1, l⟩ = .ok (ss.Sequence, ⟨s1, l1⟩)) ∧
        (∃ v l1, Proposal ⟨s1, l⟩ = .ok (v, ⟨s1, l1⟩))) :=
  ⟨_, rfl, rfl, rfl, rfl, rfl, rfl, rfl,
    fun m => ⟨_, DecodeRLP_ok rlp stream rest ss h m.s m.log⟩,
    fun l => ⟨⟨_, Round_run _ l rfl⟩, ⟨_, Sequence_run _ l rfl⟩, ⟨_, _, Proposal_run _ l rfl⟩⟩⟩

/-- C3 at a stream of the plain codec, decoded into a receiver without a lock
and into one whose lock is held. -/
theorem DecodeRLP_replaces_state_witness :
    Plain.rlp.Decode Plain.idleBytes = (.ok Plain.idle.fields, []) ∧
      Plain.blank.mu = none ∧ Plain.sample.mu = some .locked ∧
      ∃ s1 : snapshot Unit Plain.Prop0 Plain.Votes,
        s1.round = some 7 ∧ s1.mu = some .unlocked ∧
        (∃ l1, DecodeRLP Plain.rlp Plain.idleBytes ⟨Plain.blank, []⟩ =
          .ok ((none, []), ⟨s1, l1⟩)) ∧
        (∃ l1, DecodeRLP Plain.rlp Plain.idleBytes ⟨Plain.sample, []⟩ =
          .ok ((none, []), ⟨s1, l1⟩)) ∧
        ∃ l1, Round ⟨s1, []⟩ = .ok (some 7, ⟨s1, l1⟩) := by
  obtain ⟨s1, hr, -, -, -, -, -, hmu, hdec, hcall⟩ :=
    DecodeRLP_replaces_state Plain.rlp Plain.idleBytes [] Plain.idle.fields rfl
  exact ⟨rfl, rfl, rfl, s1, hr, hmu, hdec _, hdec _, (hcall []).1⟩

/-- C4: when the underlying decode of the six-field tuple fails, `DecodeRLP`
returns that error and leaves the receiver, its lock included, exactly as it
was; and `DecodeRLP` returns no error only when the underlying decode
succeeded. -/
theorem DecodeRLP_fails_closed (rlp : Rlp X Prp M Err) (stream : Bytes) (m : Mem X Prp M) :
    (∀ err rest, rlp.Decode stream = (.error err, rest) →
      DecodeRLP rlp stream m = .ok ((some err, rest), m)) ∧
    (∀ rest m1, DecodeRLP rlp stream m = .ok ((none, rest), m1) →
      ∃ ss, rlp.Decode stream = (.ok ss, rest)) := by
  refine ⟨fun err rest h => DecodeRLP_error rlp stream rest err h m, fun rest m1 h => ?_⟩
  rcases hd : rlp.Decode stream with ⟨res, rest1⟩
  cases res with
  | error err =>
    rw [DecodeRLP_error rlp stream rest1 err hd m] at h
    simp at h
  | ok ss =>
    rw [DecodeRLP_ok rlp stream rest1 ss hd m.s m.log] at h
    simp only [Except.ok.injEq, Prod.mk.injEq, true_and] at h
    exact ⟨ss, by rw [h.1]⟩

/-- C4 at an input that is no six-field tuple, on a round state whose lock is
held. -/
theorem DecodeRLP_fails_closed_witness :
    Plain.rlp.Decode [1, 1, 0] = (.error .malformed, [1, 1, 0]) ∧
      DecodeRLP Plain.rlp [1, 1, 0] ⟨Plain.sample, []⟩ =
        .ok ((some .malformed, [1, 1, 0]), ⟨Plain.sample, []⟩) :=
  ⟨rfl, (DecodeRLP_fails_closed Plain.rlp [1, 1, 0] ⟨Plain.sample, []⟩).1 _ _ rfl⟩

end Codec

end Pbft

namespace Pbft

namespace Plain

/-- Whatever the plain codec decodes into the six fields, it has allocated:
none of them is nil after a decode that succeeded. -/
theorem rlp_allocates : rlp.Allocates := by
  intro stream ss h
  simp only [rlp, decode] at h
  split at h
  · rename_i ss1 rest hget
    simp only [Except.ok.injEq] at h
    subst h
    unfold getFields at hget
    repeat' split at hget
    all_goals first
      | (simp only [Option.some.injEq, Prod.mk.injEq] at hget
         rw [← hget.1]
         rfl)
      | (simp at hget)
  · simp at h

end Plain

end Pbft

namespace Pbft

section Protocol

variable {X Prp M Err : Type}

/-- C1: the round trip does not hold for a valid round state that has no
proposal.  `newSnapshot` builds such a state and `EncodeRLP` encodes its nil
Preprepare, but the field `Preprepare` of `ss` has no `rlp:"nil"` tag, so a
decode that succeeds has allocated it: on no input at all does `DecodeRLP`
return without error and leave a receiver whose Preprepare is absent. -/
theorem DecodeRLP_never_restores_absent_Preprepare (rlp : Rlp X Prp M Err)
    (hrlp : rlp.Allocates) (s : snapshot X Prp M) (hs : s.Preprepare = none)
    (stream : Bytes) (m : Mem X Prp M) :
    ¬ ∃ rest s1 l1, DecodeRLP rlp stream m = .ok ((none, rest), ⟨s1, l1⟩) ∧
        s1.Preprepare = s.Preprepare := by
  rintro ⟨rest, s1, l1, hd, hp⟩
  rcases hdec : rlp.Decode stream with ⟨res, rest1⟩
  cases res with
  | error err =>
    rw [DecodeRLP_error rlp stream rest1 err hdec m] at hd
    simp at hd
  | ok ss =>
    rw [DecodeRLP_ok rlp stream rest1 ss hdec m.s m.log] at hd
    simp only [Except.ok.injEq, Prod.mk.injEq, Mem.mk.injEq] at hd
    have hs1 : s1.Preprepare = ss.Preprepare := by rw [← hd.2.1]
    have hall := hrlp stream ss (by rw [hdec])
    simp only [Fields.allocated, Bool.and_eq_true] at hall
    rw [hs, hs1] at hp
    rw [hp] at hall
    simp at hall

/-- C1 at the state `newSnapshot` builds at round 0 of sequence 0: it is valid
and has no Preprepare, `EncodeRLP` writes its bytes without error, and
`DecodeRLP` on those bytes returns an error and leaves the receiver as it was,
so the state does not come back. -/
theorem DecodeRLP_never_restores_absent_Preprepare_witness :
    newSnapshot (fun vs : List Nat => some { roster := vs, votes := [] })
        (some { Round := some 0, Sequence := some 0 }) [1] = .ok Plain.fresh ∧
      Plain.fresh.fields.wellFormed = true ∧
      Plain.fresh.Preprepare = none ∧
      EncodeRLP Plain.rlp [] ⟨Plain.fresh, []⟩ =
        .ok ((none, Plain.freshBytes),
          ⟨Plain.fresh,
            [.read .round, .read .sequence, .read .Preprepare, .read .Prepares,
              .read .Commits, .read .Checkpoints]⟩) ∧
      DecodeRLP Plain.rlp Plain.freshBytes ⟨Plain.blank, []⟩ =
        .ok ((some .malformed, Plain.freshBytes), ⟨Plain.blank, []⟩) ∧
      ¬ ∃ rest s1 l1, DecodeRLP Plain.rlp Plain.freshBytes ⟨Plain.blank, []⟩ =
          .ok ((none, rest), ⟨s1, l1⟩) ∧ s1.Preprepare = Plain.fresh.Preprepare :=
  ⟨rfl, rfl, rfl, rfl, rfl,
    DecodeRLP_never_restores_absent_Preprepare Plain.rlp Plain.rlp_allocates Plain.fresh rfl
      Plain.freshBytes ⟨Plain.blank, []⟩⟩

/-- Against C9 as stated: `DecodeRLP` assigns the six fields and the field `mu`
without taking the lock, and `EncodeRLP` reads the six fields without taking
it; neither run is a critical section. -/
theorem codec_methods_take_no_lock :
    (DecodeRLP Plain.rlp Plain.idleBytes ⟨Plain.sample, []⟩ =
        .ok ((none, []),
          ⟨Plain.idle,
            [.write .round, .write .sequence, .write .Preprepare, .write .Prepares,
              .write .Commits, .write .Checkpoints, .writeMu]⟩) ∧
      guarded false
        [.write .round, .write .sequence, .write .Preprepare, .write .Prepares,
          .write .Commits, .write .Checkpoints, .writeMu] = false) ∧
    (∃ out, EncodeRLP Plain.rlp [] ⟨Plain.idle, []⟩ =
        .ok (out,
          ⟨Plain.idle,
            [.read .round, .read .sequence, .read .Preprepare, .read .Prepares,
              .read .Commits, .read .Checkpoints]⟩) ∧
      guarded false
        [.read .round, .read .sequence, .read .Preprepare, .read .Prepares,
          .read .Commits, .read .Checkpoints] = false) :=
  ⟨⟨rfl, rfl⟩, ⟨_, rfl, rfl⟩⟩

/-- C9 as amended: on a round state whose lock is free, each of `Proposal`,
`SetRound`, `Round`, `SetSequence` and `Sequence` runs as a critical section:
it takes the lock before it reads or writes a field, touches fields only while
it holds the lock, and has released it when it returns.  `DecodeRLP` does not
take the lock: it never locks or unlocks, and when it returns no error it has
put a new, free lock in the receiver. -/
theorem accessors_are_critical_sections :
    (∀ (s : snapshot X Prp M) (l : List Event), s.mu = some .unlocked →
      (∃ v s1 evs, Proposal ⟨s, l⟩ = .ok (v, ⟨s1, l ++ evs⟩) ∧
        guarded false evs = true ∧ s1.mu = some .unlocked) ∧
      (∀ r : Int, ∃ s1 evs, SetRound (some r) ⟨s, l⟩ = .ok ((), ⟨s1, l ++ evs⟩) ∧
        guarded false evs = true ∧ s1.mu = some .unlocked) ∧
      (∃ v s1 evs, Round ⟨s, l⟩ = .ok (v, ⟨s1, l ++ evs⟩) ∧
        guarded false evs = true ∧ s1.mu = some .unlocked) ∧
      (∀ seq : Option Int, ∃ s1 evs, SetSequence seq ⟨s, l⟩ = .ok ((), ⟨s1, l ++ evs⟩) ∧
        guarded false evs = true ∧ s1.mu = some .unlocked) ∧
      (∃ v s1 evs, Sequence ⟨s, l⟩ = .ok (v, ⟨s1, l ++ evs⟩) ∧
        guarded false evs = true ∧ s1.mu = some .unlocked)) ∧
    (∀ (rlp : Rlp X Prp M Err) (stream : Bytes) (m : Mem X Prp M),
      ∃ out m1 evs, DecodeRLP rlp stream m = .ok (out, m1) ∧ m1.log = m.log ++ evs ∧
        Event.lock ∉ evs ∧ Event.unlock ∉ evs ∧
        (out.1 = none → m1.s.mu = some .unlocked)) := by
  refine ⟨fun s l h => ⟨⟨_, _, _, Proposal_run s l h, rfl, h⟩,
    fun r => ⟨_, _, SetRound_run s l h r, rfl, h⟩, ⟨_, _, _, Round_run s l h, rfl, h⟩,
    fun seq => ⟨_, _, SetSequence_run s l h seq, rfl, h⟩,
    ⟨_, _, _, Sequence_run s l h, rfl, h⟩⟩, fun rlp stream m => ?_⟩
  rcases hd : rlp.Decode stream with ⟨res, rest⟩
  cases res with
  | error err =>
    exact ⟨_, _, [], DecodeRLP_error rlp stream rest err hd m, by simp, by simp, by simp,
      by simp⟩
  | ok ss =>
    exact ⟨_, _, _, DecodeRLP_ok rlp stream rest ss hd m.s m.log, rfl, by simp, by simp,
      fun _ => rfl⟩

/-- C9 as amended, at a round state whose lock is free. -/
theorem accessors_are_critical_sections_witness :
    Plain.idle.mu = some .unlocked ∧
      ∃ v s1 evs, Round ⟨Plain.idle, []⟩ = .ok (v, ⟨s1, [] ++ evs⟩) ∧
        guarded false evs = true ∧ s1.mu = some .unlocked :=
  ⟨rfl, ((@accessors_are_critical_sections Unit Plain.Prop0 Plain.Votes
    Plain.CodecError).1 Plain.idle [] rfl).2.2.1⟩

end Protocol

end Pbft
